import Mathlib

/-!
Shallow embedding of the analytical core of `dashboard.py`: data
normalization (date / channel derivation), the filter pipeline, KPI
aggregation, the per-restaurant summary, spend-distribution outlier
analysis, and the cohort-retention matrix.  Monetary amounts and all
rates are modelled as exact rationals (the source uses machine floats;
the claims below only involve exact arithmetic or explicit rounding).
-/

/-- A calendar date as parsed from a `date_id` token. -/
structure CalDate where
  year : Nat
  month : Nat
  day : Nat
deriving DecidableEq, Repr

/-- Calendar order on dates (lexicographic year, month, day), as the
Boolean predicate used by the filter comparisons `date >= start` /
`date <= end`. -/
def CalDate.le (a b : CalDate) : Bool :=
  decide (a.year < b.year ∨ (a.year = b.year ∧
    (a.month < b.month ∨ (a.month = b.month ∧ a.day ≤ b.day))))

/-- One reservation record after `load_and_process_data`: the raw
passthrough columns plus the derived `date` and `channel_name`. -/
structure Record where
  restaurant_id : String
  customer_id : String
  date : CalDate
  channel_name : String
  status : String
  total_spent : ℚ
deriving DecidableEq, Repr

/-- Derived `month` column, encoded as `year * 12 + month` exactly as the
retention code computes it (`dt.year * 12 + dt.month`). -/
def Record.monthInt (r : Record) : Int :=
  (r.date.year : Int) * 12 + (r.date.month : Int)

/- ---------------- Dataset loader: date parsing ---------------- -/

/-- The fixed lookup table `channel_mapping` of the source. -/
def channel_mapping : List (String × String) :=
  [("CH1", "Web"), ("CH2", "App"), ("CH3", "Teléfono"), ("CH4", "Partner")]

/-- Embeds `df['channel_id'].map(channel_mapping).fillna('Otro')`. -/
def channelNameOf (cid : String) : String :=
  (channel_mapping.lookup cid).getD "Otro"

/- ---------------- Filter engine ---------------- -/

/-- Embeds the `df_filtered` boolean-mask filter: inclusive date bounds
and membership of `restaurant_id` / `channel_name` in the selected
sets. -/
def df_filtered (db : List Record) (startD endD : CalDate)
    (rests chans : List String) : List Record :=
  db.filter (fun r =>
    CalDate.le startD r.date && CalDate.le r.date endD &&
    rests.contains r.restaurant_id && chans.contains r.channel_name)

/- ---------------- KPI aggregator ---------------- -/

/-- Embeds `df_confirmadas = df_filtered[df_filtered['status'] == 'Confirmada']`. -/
def confirmedOf (v : List Record) : List Record :=
  v.filter (fun r => r.status == "Confirmada")

/-- Number of records of the view with the given status. -/
def countStatus (v : List Record) (s : String) : Nat :=
  (v.filter (fun r => r.status == s)).length

/-- Embeds `total_revenue = df_confirmadas['total_spent'].sum()`. -/
def total_revenue (v : List Record) : ℚ :=
  ((confirmedOf v).map (fun r => r.total_spent)).sum

/-- Embeds `avg_ticket = mean(...) if not df_confirmadas.empty else 0`. -/
def avg_ticket (v : List Record) : ℚ :=
  if (confirmedOf v).isEmpty then 0
  else total_revenue v / ((confirmedOf v).length : ℚ)

/-- Embeds `confirmation_rate` with its `if total > 0 else 0` guard. -/
def confirmation_rate (v : List Record) : ℚ :=
  if 0 < v.length then (countStatus v "Confirmada" : ℚ) / (v.length : ℚ) * 100
  else 0

/-- Embeds `cancellation_rate` (the source divides without a guard; this
line only runs on a non-empty view, and rational division is total). -/
def cancellation_rate (v : List Record) : ℚ :=
  (countStatus v "Cancelada" : ℚ) / (v.length : ℚ) * 100

/-- Embeds `no_show_rate` (unguarded division, as in the source). -/
def no_show_rate (v : List Record) : ℚ :=
  (countStatus v "No Show" : ℚ) / (v.length : ℚ) * 100

/- ---------------- Restaurant summary builder ---------------- -/

/-- Bankers rounding (round half to even) of a rational to an integer,
the rounding mode of the source's `.round(1)`. -/
def rhalfEven (x : ℚ) : Int :=
  let f : Int := ⌊x⌋
  if x - (f : ℚ) < 1/2 then f
  else if 1/2 < x - (f : ℚ) then f + 1
  else if f % 2 = 0 then f else f + 1

/-- Rounding to one decimal place, as `.round(1)` does. -/
def round1 (x : ℚ) : ℚ := (rhalfEven (x * 10) : ℚ) / 10

/-- Column labels of `value_counts().unstack(fill_value=0)`: the distinct
status values occurring in the view. -/
def statusCols (v : List Record) : List String :=
  (v.map (fun r => r.status)).dedup

/-- Row labels of the summary: the distinct restaurant ids of the view
(every key of the `concat` of the two groupbys, since the confirmed
subset's keys are a subset of the full view's). -/
def restKeys (v : List Record) : List String :=
  (v.map (fun r => r.restaurant_id)).dedup

/-- Cell of the unstacked status-count table: number of records of the
view at the given restaurant with the given status (0 when the
combination is absent, matching `fill_value=0`). -/
def countRS (v : List Record) (k s : String) : Nat :=
  (v.filter (fun r => r.restaurant_id == k && r.status == s)).length

/-- Group revenue `Ingresos_Totales` for one restaurant over the
confirmed subset; 0 when the restaurant has no confirmed records,
matching the `fillna(0)` after `concat`. -/
def groupRevenue (conf : List Record) (k : String) : ℚ :=
  ((conf.filter (fun r => r.restaurant_id == k)).map (fun r => r.total_spent)).sum

/-- Group mean ticket `Ticket_Promedio`; 0 when the restaurant has no
confirmed records (`fillna(0)`). -/
def groupTicket (conf : List Record) (k : String) : ℚ :=
  let g := conf.filter (fun r => r.restaurant_id == k)
  if g.isEmpty then 0 else (g.map (fun r => r.total_spent)).sum / (g.length : ℚ)

/-- One row of the restaurant summary table. -/
structure RestRow where
  ingresos : ℚ
  ticket : ℚ
  confirmada : Nat
  cancelada : Nat
  noShow : Nat
  total : Nat
  tasaCancel : Option ℚ
  tasaNoShow : Option ℚ
deriving DecidableEq, Repr

/-- Rate column of the summary: percentage of the restaurant's total,
rounded to one decimal; `none` models the NaN the source produces when
the restaurant's three-status total is 0. -/
def statusRate (c tot : Nat) : Option ℚ :=
  if tot = 0 then none else some (round1 ((c : ℚ) / (tot : ℚ) * 100))

/-- One summary row for a restaurant: revenue and ticket from the
confirmed subset, status counts and derived columns from the full
view. -/
def summaryRow (v : List Record) (k : String) : String × RestRow :=
  (k, { ingresos := groupRevenue (confirmedOf v) k
        ticket := groupTicket (confirmedOf v) k
        confirmada := countRS v k "Confirmada"
        cancelada := countRS v k "Cancelada"
        noShow := countRS v k "No Show"
        total := countRS v k "Confirmada" + countRS v k "Cancelada" +
          countRS v k "No Show"
        tasaCancel := statusRate (countRS v k "Cancelada")
          (countRS v k "Confirmada" + countRS v k "Cancelada" +
            countRS v k "No Show")
        tasaNoShow := statusRate (countRS v k "No Show")
          (countRS v k "Confirmada" + countRS v k "Cancelada" +
            countRS v k "No Show") })

/-- Embeds the `restaurant_summary` block (source lines 96-101): one row
per restaurant of the view.  The column selection
`restaurant_summary[['Confirmada', 'Cancelada', 'No Show']]` raises a
KeyError when one of the three statuses occurs nowhere in the filtered
view (the unstacked table then lacks that column); `none` models that
crash. -/
def restaurant_summary (v : List Record) : Option (List (String × RestRow)) :=
  let cols := statusCols v
  if "Confirmada" ∈ cols ∧ "Cancelada" ∈ cols ∧ "No Show" ∈ cols then
    some ((restKeys v).map (summaryRow v))
  else none

/- ---------------- Spend distribution analyzer ---------------- -/

/-- Insert a value into an ascending-sorted list of rationals. -/
def insertAsc (x : ℚ) : List ℚ → List ℚ
  | [] => [x]
  | y :: ys => if x ≤ y then x :: y :: ys else y :: insertAsc x ys

/-- Ascending sort of a list of rationals (insertion sort). -/
def sortAsc (l : List ℚ) : List ℚ := l.foldr insertAsc []

/-- Linear-interpolation quantile, the default of `Series.quantile` /
`describe`: at fractional position `(n - 1) * p` of the sorted values,
interpolating between the two neighbouring order statistics. -/
def quantile (l : List ℚ) (p : ℚ) : ℚ :=
  let s := sortAsc l
  let n := s.length
  if n = 0 then 0
  else
    let h : ℚ := ((n : ℚ) - 1) * p
    let i : Nat := (⌊h⌋).toNat
    let lo := s.getD i 0
    let hi := s.getD (i + 1) lo
    lo + (h - (i : ℚ)) * (hi - lo)

/-- Spend values of the confirmed subset. -/
def spends (conf : List Record) : List ℚ :=
  conf.map (fun r => r.total_spent)

/-- Embeds `q3 = quantile(0.75)` of the confirmed spends. -/
def spendQ3 (conf : List Record) : ℚ := quantile (spends conf) (3/4)

/-- Embeds `iqr = q3 - quantile(0.25)`. -/
def spendIQR (conf : List Record) : ℚ :=
  spendQ3 conf - quantile (spends conf) (1/4)

/-- Embeds `upper_bound = q3 + 1.5 * iqr`. -/
def upper_bound (conf : List Record) : ℚ :=
  spendQ3 conf + 3/2 * spendIQR conf

/-- Embeds `outliers = df_confirmadas[df_confirmadas['total_spent'] > upper_bound]`. -/
def outliers (conf : List Record) : List Record :=
  conf.filter (fun r => decide (upper_bound conf < r.total_spent))

/-- Maximum of a list of rationals (0 for the empty list; used only for
packaging the `describe()` statistics). -/
def listMaxQ : List ℚ → ℚ
  | [] => 0
  | a :: t => t.foldl max a

/-- The spend statistics handed to the presentation layer: the
`describe()` quartiles and maximum, the outlier threshold and the
outlier records. -/
structure SpendStats where
  q1 : ℚ
  median : ℚ
  q3 : ℚ
  maxSpend : ℚ
  upper : ℚ
  outlierRows : List Record
deriving DecidableEq, Repr

/-- Packages the spend-distribution block of the source. -/
def spendStats (conf : List Record) : SpendStats :=
  { q1 := quantile (spends conf) (1/4)
    median := quantile (spends conf) (1/2)
    q3 := spendQ3 conf
    maxSpend := listMaxQ (spends conf)
    upper := upper_bound conf
    outlierRows := outliers conf }

/- ---------------- Retention / cohort engine ---------------- -/

/-- Minimum of a list of integers, `none` on the empty list. -/
def minInt : List Int → Option Int
  | [] => none
  | a :: t =>
    match minInt t with
    | none => some a
    | some m => some (min a m)

/-- The `month` values of one customer's records. -/
def monthsOf (l : List Record) (c : String) : List Int :=
  (l.filter (fun r => r.customer_id == c)).map Record.monthInt

/-- Embeds `groupby('customer_id')['month'].transform('min')`: the
customer's acquisition month (as `year * 12 + month`). -/
def acqMonth (l : List Record) (c : String) : Int :=
  (minInt (monthsOf l c)).getD 0

/-- Embeds `cohort_index = current_month_int - acq_month_int`. -/
def cohortIndex (l : List Record) (r : Record) : Int :=
  r.monthInt - acqMonth l r.customer_id

/-- Row labels of the pivot: the distinct acquisition months. -/
def cohortRows (l : List Record) : List Int :=
  (l.map (fun r => acqMonth l r.customer_id)).dedup

/-- Column labels of the pivot: the distinct cohort indices. -/
def colIndices (l : List Record) : List Int :=
  (l.map (cohortIndex l)).dedup

/-- Number of columns of the retention matrix (`shape[1]` of the pivot). -/
def numCols (l : List Record) : Nat := (colIndices l).length

/-- Distinct-customer count for one `(acquisition month, cohort index)`
cell, the `nunique()` aggregation. -/
def nuniq (l : List Record) (acq idx : Int) : Nat :=
  ((l.filter (fun r =>
      acqMonth l r.customer_id == acq && cohortIndex l r == idx)).map
    (fun r => r.customer_id)).dedup.length

/-- Cell of the `pivot_table`: the distinct-customer count, or `none`
(NaN) when the combination has no records. -/
def cohortCell (l : List Record) (acq idx : Int) : Option ℚ :=
  if nuniq l acq idx = 0 then none else some ((nuniq l acq idx : ℚ))

/-- Label of the pivot's first column (`iloc[:, 0]`): pivot columns are
sorted ascending, so this is the smallest cohort index present. -/
def firstCol (l : List Record) : Int :=
  (minInt (l.map (cohortIndex l))).getD 0

/-- Cell of `retention_matrix = cohort_counts.divide(cohort_sizes, axis=0) * 100`:
the cell count divided by the row's entry in the first pivot column,
times 100; `none` models NaN. -/
def retentionCell (l : List Record) (acq idx : Int) : Option ℚ :=
  match cohortCell l acq idx, cohortCell l acq (firstCol l) with
  | some c, some s => some (c / s * 100)
  | _, _ => none

/-- Result of the retention step as seen by the presentation layer:
either the "insufficient range" signal or the matrix (rows, columns,
and the cell function). -/
inductive RetentionResult where
  | insufficientRange
  | matrix (rows cols : List Int) (cell : Int → Int → Option ℚ)

/-- Embeds source lines 183-185: compute `calculate_retention` on the
confirmed subset and branch on `retention_matrix.shape[1] < 2`, showing
the "insufficient range" message in that case.  The other branch is
Modelled from the spec: the source file is truncated inside the `< 2`
branch, and per the spec the engine otherwise hands the retention matrix
itself to the presentation layer. -/
def retention_result (l : List Record) : RetentionResult :=
  if numCols l < 2 then .insufficientRange
  else .matrix (cohortRows l) (colIndices l) (retentionCell l)

/- ---------------- Main control flow ---------------- -/

/-- Output of one recomputation pass of the dashboard body, by branch:
the empty-view warning, the "no confirmed data" message (KPIs only), or
the full set of analyses. -/
inductive BodyResult where
  | noData
  | noConfirmed (revenue ticket confRate cancelRate noShowRate : ℚ)
  | full (revenue ticket confRate cancelRate noShowRate : ℚ)
      (summary : Option (List (String × RestRow)))
      (spend : SpendStats)
      (retention : RetentionResult)

/-- Embeds the main body (source lines 68-186): filter, the
`df_filtered.empty` branch, the KPI block, the `df_confirmadas.empty`
branch, and — only inside its `else` — the restaurant summary, the
spend analysis and the retention step. -/
def runDashboard (db : List Record) (startD endD : CalDate)
    (rests chans : List String) : BodyResult :=
  let v := df_filtered db startD endD rests chans
  if v.isEmpty then .noData
  else
    let conf := confirmedOf v
    if conf.isEmpty then
      .noConfirmed (total_revenue v) (avg_ticket v) (confirmation_rate v)
        (cancellation_rate v) (no_show_rate v)
    else
      .full (total_revenue v) (avg_ticket v) (confirmation_rate v)
        (cancellation_rate v) (no_show_rate v)
        (restaurant_summary v) (spendStats conf) (retention_result conf)

/- ---------------- Concrete sample data ---------------- -/

/-- Convenience constructor for a processed record. -/
def mkRec (rid cid : String) (y m d : Nat) (ch st : String) (sp : ℚ) : Record :=
  { restaurant_id := rid, customer_id := cid, date := ⟨y, m, d⟩,
    channel_name := ch, status := st, total_spent := sp }

/- ---------------- Claim C9: channel mapping ---------------- -/

/-- C9: the derived channel name is given by the fixed lookup table
`{CH1 → Web, CH2 → App, CH3 → Teléfono, CH4 → Partner}` (the spec's
"Phone" / "Other" are its English renderings of the source's literals
"Teléfono" / "Otro"), and every other code maps to the default "Otro";
being a total Lean function, the mapping never yields null or fails. -/
theorem c9_channel_total :
    channelNameOf "CH1" = "Web" ∧ channelNameOf "CH2" = "App" ∧
    channelNameOf "CH3" = "Teléfono" ∧ channelNameOf "CH4" = "Partner" ∧
    ∀ c : String, c ≠ "CH1" → c ≠ "CH2" → c ≠ "CH3" → c ≠ "CH4" →
      channelNameOf c = "Otro" := by
  refine ⟨rfl, rfl, rfl, rfl, ?_⟩
  intro c h1 h2 h3 h4
  have e1 : (c == "CH1") = false := beq_eq_false_iff_ne.mpr h1
  have e2 : (c == "CH2") = false := beq_eq_false_iff_ne.mpr h2
  have e3 : (c == "CH3") = false := beq_eq_false_iff_ne.mpr h3
  have e4 : (c == "CH4") = false := beq_eq_false_iff_ne.mpr h4
  simp [channelNameOf, channel_mapping, List.lookup, e1, e2, e3, e4]

/-- Witness for C9: the unknown code "CH9" maps to the default. -/
theorem c9_channel_total_witness : channelNameOf "CH9" = "Otro" :=
  c9_channel_total.2.2.2.2 "CH9" (by decide) (by decide) (by decide) (by decide)

/- ---------------- Claim C4: date_id parsing ---------------- -/

/-- C8: a record is kept by the filter iff its date lies within the
range with inclusive bounds on both ends, its restaurant id is a member
of the selected restaurant set, and its channel is a member of the
selected channel set; in particular an empty restaurant set or an empty
channel set yields the empty result, not the whole dataset. -/
theorem c8_filter_membership (db : List Record) (s e : CalDate)
    (rs cs : List String) :
    (∀ r : Record, r ∈ df_filtered db s e rs cs ↔
        r ∈ db ∧ CalDate.le s r.date = true ∧ CalDate.le r.date e = true ∧
        r.restaurant_id ∈ rs ∧ r.channel_name ∈ cs) ∧
    df_filtered db s e [] cs = [] ∧
    df_filtered db s e rs [] = [] := by
  refine ⟨?_, ?_, ?_⟩
  · intro r
    simp [df_filtered, List.mem_filter, and_assoc]
  · simp [df_filtered]
  · simp [df_filtered]

/- ---------------- Claim C5: rates sum to 100 ---------------- -/

/-- When every record's status is one of the three recognized values,
the three status counts partition the view. -/
lemma countStatus_partition (v : List Record)
    (h : ∀ r ∈ v, r.status = "Confirmada" ∨ r.status = "Cancelada" ∨
      r.status = "No Show") :
    countStatus v "Confirmada" + countStatus v "Cancelada" +
      countStatus v "No Show" = v.length := by
  induction v with
  | nil => rfl
  | cons r t ih =>
    have ht : ∀ x ∈ t, x.status = "Confirmada" ∨ x.status = "Cancelada" ∨
        x.status = "No Show" := fun x hx => h x (List.mem_cons_of_mem r hx)
    have iht := ih ht
    rcases h r (List.mem_cons_self r t) with hs | hs | hs <;>
      simp [countStatus, List.filter, hs] at iht ⊢ <;> omega

/-- C5: on a non-empty filtered view whose statuses are all recognized,
the three KPI rates sum to 100 (exactly, hence within the claim's ±0.1
rounding tolerance). -/
theorem c5_rates_sum (v : List Record) (hne : v ≠ [])
    (h : ∀ r ∈ v, r.status = "Confirmada" ∨ r.status = "Cancelada" ∨
      r.status = "No Show") :
    |confirmation_rate v + cancellation_rate v + no_show_rate v - 100| ≤ 1/10 := by
  have hlen : 0 < v.length := List.length_pos.mpr hne
  have hn0 : ((v.length : ℚ)) ≠ 0 := by
    exact_mod_cast Nat.pos_iff_ne_zero.mp hlen
  have hcount := countStatus_partition v h
  have hsum : confirmation_rate v + cancellation_rate v + no_show_rate v = 100 := by
    rw [confirmation_rate, if_pos hlen, cancellation_rate, no_show_rate]
    field_simp
    push_cast [← hcount]
    ring
  rw [hsum]
  norm_num

/-- Sample view for the C5 witness: three records, one of each status. -/
def sampleC5 : List Record :=
  [mkRec "R1" "c1" 2023 1 1 "Web" "Confirmada" 50,
   mkRec "R1" "c2" 2023 1 2 "App" "Cancelada" 0,
   mkRec "R2" "c3" 2023 1 3 "Web" "No Show" 0]

/-- Witness for C5 at a concrete three-record view. -/
theorem c5_rates_sum_witness :
    |confirmation_rate sampleC5 + cancellation_rate sampleC5 +
      no_show_rate sampleC5 - 100| ≤ 1/10 :=
  c5_rates_sum sampleC5 (by decide) (by decide)

/- ---------------- Claim C6: revenue consistency ---------------- -/

/-- Splitting a spend sum along a Boolean predicate. -/
lemma sum_spend_filter_split (p : Record → Bool) (l : List Record) :
    ((l.filter p).map (fun r => r.total_spent)).sum +
      ((l.filter (fun r => !p r)).map (fun r => r.total_spent)).sum =
    (l.map (fun r => r.total_spent)).sum := by
  induction l with
  | nil => simp
  | cons r t ih =>
    cases hp : p r <;> simp [List.filter, hp, ← ih] <;> ring

/-- Summing the group revenues over any duplicate-free list of keys
covering all records gives the total revenue. -/
lemma sum_groupRevenue (keys : List String) (l : List Record)
    (hnd : keys.Nodup) (hcov : ∀ r ∈ l, r.restaurant_id ∈ keys) :
    (keys.map (fun k => groupRevenue l k)).sum =
      (l.map (fun r => r.total_spent)).sum := by
  induction keys generalizing l with
  | nil =>
    have hl : l = [] := by
      cases l with
      | nil => rfl
      | cons r t => exact absurd (hcov r (List.mem_cons_self r t)) (List.not_mem_nil _)
    simp [hl]
  | cons k ks ih =>
    have hk_not : k ∉ ks := (List.nodup_cons.mp hnd).1
    have hnd' : ks.Nodup := (List.nodup_cons.mp hnd).2
    have hsplit := sum_spend_filter_split (fun r => r.restaurant_id == k) l
    have hcov' : ∀ r ∈ l.filter (fun r => !(r.restaurant_id == k)),
        r.restaurant_id ∈ ks := by
      intro r hr
      rw [List.mem_filter] at hr
      have hne : r.restaurant_id ≠ k := by
        simpa using hr.2
      rcases hcov r hr.1 with hmem
      cases List.mem_cons.mp hmem with
      | inl hh => exact absurd hh hne
      | inr hh => exact hh
    have hmapeq : ks.map (fun k2 => groupRevenue l k2) =
        ks.map (fun k2 => groupRevenue (l.filter (fun r => !(r.restaurant_id == k))) k2) := by
      apply List.map_congr_left
      intro k2 hk2
      have hne : k2 ≠ k := fun hh => hk_not (hh ▸ hk2)
      have hfeq : l.filter (fun r => r.restaurant_id == k2) =
          l.filter (fun a => a.restaurant_id == k2 && !(a.restaurant_id == k)) := by
        apply List.filter_congr
        intro r _
        by_cases hr : r.restaurant_id = k2
        · simp [hr, hne]
        · simp [hr]
      rw [groupRevenue, groupRevenue, List.filter_filter, ← hfeq]
    calc ((k :: ks).map (fun k2 => groupRevenue l k2)).sum
        = groupRevenue l k + (ks.map (fun k2 => groupRevenue l k2)).sum := by
          simp
      _ = groupRevenue l k +
          (ks.map (fun k2 =>
            groupRevenue (l.filter (fun r => !(r.restaurant_id == k))) k2)).sum := by
          rw [hmapeq]
      _ = groupRevenue l k +
          ((l.filter (fun r => !(r.restaurant_id == k))).map
            (fun r => r.total_spent)).sum := by
          rw [ih _ hnd' hcov']
      _ = (l.map (fun r => r.total_spent)).sum := by
          rw [← hsplit, groupRevenue]

/-- C6: for a filtered view with a non-empty confirmed subset, the
per-restaurant revenue values of the summary (one per summary row key)
sum to the overall `total_revenue` KPI of the same view. -/
theorem c6_revenue_sum (v : List Record) (_hconf : confirmedOf v ≠ []) :
    ((restKeys v).map (fun k => groupRevenue (confirmedOf v) k)).sum =
      total_revenue v := by
  rw [total_revenue]
  apply sum_groupRevenue
  · exact List.nodup_dedup _
  · intro r hr
    have hrv : r ∈ v := List.mem_of_mem_filter hr
    exact List.mem_dedup.mpr (List.mem_map_of_mem (fun x => x.restaurant_id) hrv)

/-- Sample view for the C6 witness: two restaurants, a cancelled record
and confirmed revenue 30 + 20 + 5 = 55. -/
def sampleC6 : List Record :=
  [mkRec "R1" "c1" 2023 1 1 "Web" "Confirmada" 30,
   mkRec "R2" "c2" 2023 1 2 "App" "Confirmada" 20,
   mkRec "R1" "c3" 2023 1 3 "Web" "Cancelada" 99,
   mkRec "R2" "c4" 2023 1 4 "Web" "Confirmada" 5]

/-- Witness for C6 at a concrete two-restaurant view. -/
theorem c6_revenue_sum_witness :
    ((restKeys sampleC6).map (fun k => groupRevenue (confirmedOf sampleC6) k)).sum =
      total_revenue sampleC6 :=
  c6_revenue_sum sampleC6 (by decide)

/- ---------------- Claim C3: outlier rule ---------------- -/

/-- The confirmed booking with spend 100 of the spec's outlier example. -/
def recC3 : Record := mkRec "R3" "c5" 2023 1 5 "Web" "Confirmada" 100

/-- Sample confirmed subset with the spec's spend values [10,12,11,13,100]. -/
def sampleC3 : List Record :=
  [mkRec "R1" "c1" 2023 1 1 "Web" "Confirmada" 10,
   mkRec "R1" "c2" 2023 1 2 "Web" "Confirmada" 12,
   mkRec "R2" "c3" 2023 1 3 "App" "Confirmada" 11,
   mkRec "R2" "c4" 2023 1 4 "Web" "Confirmada" 13,
   recC3]

/-- C3: the analyzer computes `upper_bound = Q3 + 1.5 * (Q3 - Q1)` over
the confirmed spends, and a booking is an outlier iff its spend is
strictly greater than `upper_bound`; on the spec's example spends
[10,12,11,13,100] the quartiles are Q1 = 11 and Q3 = 13, the bound is
16, and exactly the 100 booking is flagged. -/
theorem c3_outlier_rule :
    (∀ conf : List Record, upper_bound conf =
        spendQ3 conf + 3/2 * (spendQ3 conf - quantile (spends conf) (1/4))) ∧
    (∀ conf : List Record, ∀ r : Record,
        r ∈ outliers conf ↔ r ∈ conf ∧ upper_bound conf < r.total_spent) ∧
    quantile (spends sampleC3) (1/4) = 11 ∧
    quantile (spends sampleC3) (3/4) = 13 ∧
    upper_bound sampleC3 = 16 ∧
    outliers sampleC3 = [recC3] := by
  refine ⟨fun conf => rfl, ?_, ?_, ?_, ?_, ?_⟩
  · intro conf r
    simp [outliers, List.mem_filter]
  · norm_num [quantile, spends, sampleC3, recC3, sortAsc, insertAsc, mkRec, Int.toNat]
  · norm_num [quantile, spends, sampleC3, recC3, sortAsc, insertAsc, mkRec, Int.toNat]
  · norm_num [upper_bound, spendQ3, spendIQR, quantile, spends, sampleC3, recC3,
      sortAsc, insertAsc, mkRec, Int.toNat]
  · norm_num [outliers, upper_bound, spendQ3, spendIQR, quantile, spends, sampleC3,
      recC3, sortAsc, insertAsc, mkRec, Int.toNat, List.filter]

/- ---------------- Claim C1: retention base column ---------------- -/

/-- The minimum of a non-empty integer list exists. -/
lemma minInt_isSome {l : List Int} (h : l ≠ []) : ∃ m, minInt l = some m := by
  cases l with
  | nil => exact absurd rfl h
  | cons a t =>
    rw [minInt]
    cases minInt t with
    | none => exact ⟨a, rfl⟩
    | some m => exact ⟨min a m, rfl⟩

/-- A list with no minimum is empty. -/
lemma minInt_eq_none {l : List Int} (h : minInt l = none) : l = [] := by
  cases l with
  | nil => rfl
  | cons a t =>
    rw [minInt] at h
    cases ht : minInt t with
    | none => rw [ht] at h; exact absurd h (by simp)
    | some m => rw [ht] at h; exact absurd h (by simp)

/-- The minimum of an integer list belongs to the list. -/
lemma minInt_mem : ∀ {l : List Int} {m : Int}, minInt l = some m → m ∈ l := by
  intro l
  induction l with
  | nil => intro m h; simp [minInt] at h
  | cons a t ih =>
    intro m h
    rw [minInt] at h
    cases ht : minInt t with
    | none =>
      rw [ht] at h
      simp only [Option.some.injEq] at h
      subst h
      exact List.mem_cons_self a t
    | some m' =>
      rw [ht] at h
      simp only [Option.some.injEq] at h
      subst h
      rcases min_cases a m' with ⟨heq, _⟩ | ⟨heq, _⟩
      · rw [heq]; exact List.mem_cons_self a t
      · rw [heq]; exact List.mem_cons_of_mem a (ih ht)

/-- The minimum of an integer list bounds every element. -/
lemma minInt_le : ∀ {l : List Int} {m : Int}, minInt l = some m →
    ∀ x ∈ l, m ≤ x := by
  intro l
  induction l with
  | nil => intro m _ x hx; exact absurd hx (List.not_mem_nil x)
  | cons a t ih =>
    intro m h x hx
    rw [minInt] at h
    cases ht : minInt t with
    | none =>
      rw [ht] at h
      simp only [Option.some.injEq] at h
      subst h
      have hte : t = [] := minInt_eq_none ht
      subst hte
      rcases List.mem_cons.mp hx with hxa | hxt
      · exact le_of_eq hxa.symm
      · exact absurd hxt (List.not_mem_nil x)
    | some m' =>
      rw [ht] at h
      simp only [Option.some.injEq] at h
      subst h
      rcases List.mem_cons.mp hx with hxa | hxt
      · rw [hxa]; exact min_le_left a m'
      · calc a ⊓ m' ≤ m' := min_le_right a m'
          _ ≤ x := ih ht x hxt

/-- A record's month belongs to its customer's month list. -/
lemma monthInt_mem_monthsOf {l : List Record} {r : Record} (hr : r ∈ l) :
    r.monthInt ∈ monthsOf l r.customer_id := by
  rw [monthsOf]
  exact List.mem_map_of_mem _ (List.mem_filter.mpr ⟨hr, by simp⟩)

/-- A customer's acquisition month bounds the month of each of their
records. -/
lemma acqMonth_le {l : List Record} {r : Record} (hr : r ∈ l) :
    acqMonth l r.customer_id ≤ r.monthInt := by
  have hmem := monthInt_mem_monthsOf hr
  obtain ⟨m, hm⟩ := minInt_isSome
    (l := monthsOf l r.customer_id)
    (by intro hnil; rw [hnil] at hmem; exact List.not_mem_nil _ hmem)
  rw [acqMonth, hm, Option.getD_some]
  exact minInt_le hm _ hmem

/-- The acquisition month of a customer with records is attained by one
of their records. -/
lemma acqMonth_attained {l : List Record} {c : String}
    (h : ∃ r ∈ l, r.customer_id = c) :
    ∃ q ∈ l, q.customer_id = c ∧ q.monthInt = acqMonth l c := by
  obtain ⟨r, hr, hc⟩ := h
  have hmem : r.monthInt ∈ monthsOf l c := by
    rw [monthsOf]
    exact List.mem_map_of_mem _ (List.mem_filter.mpr ⟨hr, by simp [hc]⟩)
  obtain ⟨m, hm⟩ := minInt_isSome
    (l := monthsOf l c)
    (by intro hnil; rw [hnil] at hmem; exact List.not_mem_nil _ hmem)
  have hmmem : m ∈ monthsOf l c := minInt_mem hm
  rw [monthsOf] at hmmem
  obtain ⟨q, hqf, hqm⟩ := List.mem_map.mp hmmem
  rw [List.mem_filter] at hqf
  refine ⟨q, hqf.1, by simpa using hqf.2, ?_⟩
  rw [acqMonth, hm, Option.getD_some, hqm]

/-- Every record's cohort index is non-negative. -/
lemma cohortIndex_nonneg {l : List Record} {r : Record} (hr : r ∈ l) :
    0 ≤ cohortIndex l r := by
  rw [cohortIndex]
  exact sub_nonneg.mpr (acqMonth_le hr)

/-- Some record of a non-empty list sits at cohort index 0. -/
lemma exists_cohortIndex_zero {l : List Record} (hl : l ≠ []) :
    ∃ r ∈ l, cohortIndex l r = 0 := by
  obtain ⟨a, t, rfl⟩ := List.exists_cons_of_ne_nil hl
  obtain ⟨q, hq, hqc, hqm⟩ :=
    acqMonth_attained (l := a :: t) (c := a.customer_id) ⟨a, List.mem_cons_self a t, rfl⟩
  exact ⟨q, hq, by rw [cohortIndex, hqc, hqm]; ring⟩

/-- On a non-empty input, the first pivot column is cohort index 0. -/
lemma firstCol_zero {l : List Record} (hl : l ≠ []) : firstCol l = 0 := by
  have hmapne : l.map (cohortIndex l) ≠ [] := by
    simpa using hl
  obtain ⟨m, hm⟩ := minInt_isSome hmapne
  have hm_mem := minInt_mem hm
  obtain ⟨r, hr, hrm⟩ := List.mem_map.mp hm_mem
  have hge : 0 ≤ m := hrm ▸ cohortIndex_nonneg hr
  obtain ⟨q, hq, hq0⟩ := exists_cohortIndex_zero hl
  have h0mem : (0 : Int) ∈ l.map (cohortIndex l) := by
    exact hq0 ▸ List.mem_map_of_mem _ hq
  have hle : m ≤ 0 := minInt_le hm 0 h0mem
  rw [firstCol, hm, Option.getD_some]
  omega

/-- C1: every cohort row of the retention matrix has value exactly 100
at cohort index 0, because each row is divided by its own index-0
distinct-customer count. -/
theorem c1_retention_base (l : List Record) (acq : Int)
    (hacq : acq ∈ cohortRows l) :
    retentionCell l acq 0 = some 100 := by
  have hl : l ≠ [] := by
    intro h
    rw [h] at hacq
    simp [cohortRows] at hacq
  have hfc : firstCol l = 0 := firstCol_zero hl
  obtain ⟨r, hr, hracq⟩ : ∃ r ∈ l, acqMonth l r.customer_id = acq := by
    rw [cohortRows, List.mem_dedup] at hacq
    obtain ⟨r, hr, he⟩ := List.mem_map.mp hacq
    exact ⟨r, hr, he⟩
  obtain ⟨q, hq, hqc, hqm⟩ :=
    acqMonth_attained (l := l) (c := r.customer_id) ⟨r, hr, rfl⟩
  have hqacq : acqMonth l q.customer_id = acq := by rw [hqc, hracq]
  have hqidx : cohortIndex l q = 0 := by rw [cohortIndex, hqc, hqm]; ring
  have hqfil : q ∈ l.filter (fun x =>
      acqMonth l x.customer_id == acq && cohortIndex l x == 0) := by
    rw [List.mem_filter]
    exact ⟨hq, by simp [hqacq, hqidx]⟩
  have hne : nuniq l acq 0 ≠ 0 := by
    rw [nuniq]
    have : q.customer_id ∈ ((l.filter (fun x =>
        acqMonth l x.customer_id == acq && cohortIndex l x == 0)).map
        (fun x => x.customer_id)).dedup :=
      List.mem_dedup.mpr (List.mem_map_of_mem _ hqfil)
    exact Nat.pos_iff_ne_zero.mp (List.length_pos.mpr (List.ne_nil_of_mem this))
  rw [retentionCell, hfc]
  simp only [cohortCell, hne, if_false, if_neg hne]
  have hq0 : ((nuniq l acq 0 : ℚ)) ≠ 0 := by exact_mod_cast hne
  rw [div_self hq0]
  norm_num

/-- Sample for the C1 witness: one customer seen in 2023-01 and 2023-02
and a second customer acquired in 2023-02. -/
def sampleC1 : List Record :=
  [mkRec "R1" "c1" 2023 1 1 "Web" "Confirmada" 10,
   mkRec "R1" "c1" 2023 2 1 "Web" "Confirmada" 12,
   mkRec "R1" "c2" 2023 2 3 "Web" "Confirmada" 11]

/-- Witness for C1: the 2023-01 cohort (month number 24277) of the
sample has retention 100 at index 0. -/
theorem c1_retention_base_witness :
    (24277 : Int) ∈ cohortRows sampleC1 ∧
      retentionCell sampleC1 24277 0 = some 100 :=
  ⟨by decide, c1_retention_base sampleC1 24277 (by decide)⟩

/- ---------------- Claim C2: insufficient range ---------------- -/

/-- C2: when the retention matrix has fewer than 2 distinct cohort-index
columns the consumer receives the "insufficient range" signal and never
a one-column matrix; a matrix is handed over only when there are at
least 2 columns. -/
theorem c2_insufficient_range (l : List Record) :
    (numCols l < 2 → retention_result l = RetentionResult.insufficientRange) ∧
    (∀ rows cols cell, retention_result l = RetentionResult.matrix rows cols cell →
      2 ≤ numCols l) := by
  constructor
  · intro h
    simp [retention_result, h]
  · intro rows cols cell h
    by_contra hlt
    push_neg at hlt
    rw [retention_result, if_pos hlt] at h
    exact absurd h (by simp)

/-- Sample for the C2 witness: two customers, all activity inside a
single calendar month, hence a single cohort-index column. -/
def sampleC2 : List Record :=
  [mkRec "R1" "c1" 2023 5 2 "Web" "Confirmada" 10,
   mkRec "R1" "c2" 2023 5 9 "App" "Confirmada" 20]

/-- Witness for C2: the one-month sample yields the signal. -/
theorem c2_insufficient_range_witness :
    numCols sampleC2 < 2 ∧
      retention_result sampleC2 = RetentionResult.insufficientRange :=
  ⟨by decide, (c2_insufficient_range sampleC2).1 (by decide)⟩

/- ---------------- Claim C7: restaurant summary ---------------- -/

/-- A one-record view whose only status is `Confirmada`. -/
def sampleC7bad : List Record :=
  [mkRec "R1" "c1" 2023 1 1 "Web" "Confirmada" 10]

/-- C7 (counterexample): the claim says the summary computation never
fails, including when some status occurs for no restaurant at all; but
on a view whose records are all `Confirmada`, the unstacked status-count
table has no `Cancelada` / `No Show` column and the fixed column
selection of line 99 raises a KeyError — modelled as `none` — even
though the confirmed subset is non-empty. -/
theorem c7_summary_counterexample :
    confirmedOf sampleC7bad ≠ [] ∧ restaurant_summary sampleC7bad = none := by
  constructor
  · decide
  · decide

/-- Group-then-count equals counting the conjunctive filter. -/
lemma countRS_eq_group (v : List Record) (k s : String) :
    ((v.filter (fun r => r.restaurant_id == k)).filter
      (fun r => r.status == s)).length = countRS v k s := by
  rw [countRS, List.filter_filter]
  congr 1
  apply List.filter_congr
  intro r _
  exact Bool.and_comm _ _

/-- C7 (amended): whenever the filtered view has a non-empty confirmed
subset and each of `Cancelada` and `No Show` also occurs somewhere in
the view (so that all three status columns exist), the summary succeeds
and yields, for every restaurant of the view, the three status counts
taken from the full view (0-filled when absent for that restaurant), a
total equal to their sum, and — when that total is positive —
cancellation and no-show rates as percentages of the total rounded to
one decimal place. -/
theorem c7_summary_amended (v : List Record)
    (hconf : confirmedOf v ≠ [])
    (hcanc : "Cancelada" ∈ statusCols v)
    (hnosh : "No Show" ∈ statusCols v) :
    ∃ rows, restaurant_summary v = some rows ∧
      rows.map Prod.fst = restKeys v ∧
      ∀ p ∈ rows,
        p.2.confirmada =
          ((v.filter (fun r => r.restaurant_id == p.1)).filter
            (fun r => r.status == "Confirmada")).length ∧
        p.2.cancelada =
          ((v.filter (fun r => r.restaurant_id == p.1)).filter
            (fun r => r.status == "Cancelada")).length ∧
        p.2.noShow =
          ((v.filter (fun r => r.restaurant_id == p.1)).filter
            (fun r => r.status == "No Show")).length ∧
        p.2.total = p.2.confirmada + p.2.cancelada + p.2.noShow ∧
        (0 < p.2.total →
          p.2.tasaCancel =
            some (round1 ((p.2.cancelada : ℚ) / (p.2.total : ℚ) * 100)) ∧
          p.2.tasaNoShow =
            some (round1 ((p.2.noShow : ℚ) / (p.2.total : ℚ) * 100))) := by
  have hconfcol : "Confirmada" ∈ statusCols v := by
    obtain ⟨r, hr⟩ := List.exists_mem_of_ne_nil _ hconf
    have hrs : r.status = "Confirmada" := by
      have := (List.mem_filter.mp hr).2
      simpa using this
    exact List.mem_dedup.mpr (hrs ▸ List.mem_map_of_mem _ (List.mem_of_mem_filter hr))
  refine ⟨(restKeys v).map (summaryRow v), ?_, ?_, ?_⟩
  · rw [restaurant_summary]
    rw [if_pos ⟨hconfcol, hcanc, hnosh⟩]
  · rw [List.map_map]
    have : (Prod.fst ∘ summaryRow v) = fun k : String => k := by
      funext k
      rfl
    rw [this]
    exact List.map_id' _
  · intro p hp
    obtain ⟨k, hk, hpk⟩ := List.mem_map.mp hp
    subst hpk
    refine ⟨(countRS_eq_group v k "Confirmada").symm,
            (countRS_eq_group v k "Cancelada").symm,
            (countRS_eq_group v k "No Show").symm, rfl, ?_⟩
    intro htot
    have hne : countRS v k "Confirmada" + countRS v k "Cancelada" +
        countRS v k "No Show" ≠ 0 := Nat.pos_iff_ne_zero.mp htot
    constructor
    · show statusRate (countRS v k "Cancelada") _ = _
      rw [statusRate, if_neg hne]
      rfl
    · show statusRate (countRS v k "No Show") _ = _
      rw [statusRate, if_neg hne]
      rfl

/-- Sample for the C7 witness: all three statuses present across two
restaurants. -/
def sampleC7good : List Record :=
  [mkRec "R1" "c1" 2023 1 1 "Web" "Confirmada" 10,
   mkRec "R1" "c2" 2023 1 2 "App" "Cancelada" 0,
   mkRec "R2" "c3" 2023 1 3 "Web" "No Show" 0,
   mkRec "R2" "c4" 2023 1 4 "Web" "Confirmada" 25]

/-- Witness for C7 (amended): on the three-status sample the summary
computation succeeds. -/
theorem c7_summary_amended_witness :
    confirmedOf sampleC7good ≠ [] ∧
      ∃ rows, restaurant_summary sampleC7good = some rows :=
  ⟨by decide,
   (c7_summary_amended sampleC7good (by decide) (by decide) (by decide)).imp
     (fun rows h => h.1)⟩

/- ---------------- Claim C10: no-confirmed short circuit ---------------- -/

/-- C10: on a non-empty filtered view whose confirmed subset is empty,
the body reports the "no confirmed data" branch carrying only the KPI
values — the restaurant summary, the spend-distribution analysis and
the retention computation are absent from the result, so no arithmetic
on the empty confirmed subset is ever performed. -/
theorem c10_skip_downstream (db : List Record) (startD endD : CalDate)
    (rests chans : List String)
    (hne : df_filtered db startD endD rests chans ≠ [])
    (hconf : confirmedOf (df_filtered db startD endD rests chans) = []) :
    runDashboard db startD endD rests chans =
      BodyResult.noConfirmed
        (total_revenue (df_filtered db startD endD rests chans))
        (avg_ticket (df_filtered db startD endD rests chans))
        (confirmation_rate (df_filtered db startD endD rests chans))
        (cancellation_rate (df_filtered db startD endD rests chans))
        (no_show_rate (df_filtered db startD endD rests chans)) := by
  rw [runDashboard]
  simp only [List.isEmpty_iff]
  rw [if_neg hne, if_pos hconf]

/-- Base dataset for the C10 witness: a single cancelled reservation. -/
def sampleC10 : List Record :=
  [mkRec "R1" "c1" 2023 3 10 "Web" "Cancelada" 0]

/-- Witness for C10: with filters that keep the cancelled record, the
body takes the "no confirmed data" branch. -/
theorem c10_skip_downstream_witness :
    df_filtered sampleC10 ⟨2023, 1, 1⟩ ⟨2023, 12, 31⟩ ["R1"] ["Web"] ≠ [] ∧
      runDashboard sampleC10 ⟨2023, 1, 1⟩ ⟨2023, 12, 31⟩ ["R1"] ["Web"] =
        BodyResult.noConfirmed
          (total_revenue (df_filtered sampleC10 ⟨2023, 1, 1⟩ ⟨2023, 12, 31⟩ ["R1"] ["Web"]))
          (avg_ticket (df_filtered sampleC10 ⟨2023, 1, 1⟩ ⟨2023, 12, 31⟩ ["R1"] ["Web"]))
          (confirmation_rate (df_filtered sampleC10 ⟨2023, 1, 1⟩ ⟨2023, 12, 31⟩ ["R1"] ["Web"]))
          (cancellation_rate (df_filtered sampleC10 ⟨2023, 1, 1⟩ ⟨2023, 12, 31⟩ ["R1"] ["Web"]))
          (no_show_rate (df_filtered sampleC10 ⟨2023, 1, 1⟩ ⟨2023, 12, 31⟩ ["R1"] ["Web"])) :=
  ⟨by decide,
   c10_skip_downstream sampleC10 ⟨2023, 1, 1⟩ ⟨2023, 12, 31⟩ ["R1"] ["Web"]
     (by decide) (by decide)⟩
